import Mathlib

/-!
Verification of `quart_wtf/form.py` (class `QuartForm`) against its
natural-language specification.

The adapter sits between the asynchronous request layer (Quart) and the
synchronous base form library (WTForms).  We embed the adapter's own code
faithfully; the collaborators it calls (the WTForms validation pass, the
request proxy) are modelled at their documented boundary:

* a synchronous validator's effect on a run is one of: succeed, raise
  `ValidationError(msg)` (message appended, chain continues), or raise
  `StopValidation` (chain stops, optional message appended);
* awaiting an `async_validate_<name>` coroutine either returns, raises
  `ValidationError(msg)`, or raises some other exception;
* a `MultiDict` is truthy iff non-empty; the `request` proxy is falsy when
  no request context is bound.

Python exceptions are modelled with `Except`; Python-level mutation of the
lists shared through `extra_validators.copy()` (a shallow copy) is modelled
with an explicit store (`Heap`) of list objects addressed by reference.
-/

set_option autoImplicit false

namespace QuartWtf

/-- Outcome of one synchronous validator in a field's chain, as the base
library's `_run_validation_chain` sees it on the current data. -/
inductive SyncOutcome where
  | ok : SyncOutcome
  | valError : String → SyncOutcome
  | stop : Option String → SyncOutcome
deriving DecidableEq

/-- Outcome of awaiting an `async_validate_<name>` coroutine on the current
data: return normally, raise `ValidationError msg`, or raise some other
exception carrying `e`. -/
inductive AsyncOutcome where
  | ok : AsyncOutcome
  | valError : String → AsyncOutcome
  | raise : String → AsyncOutcome
deriving DecidableEq

/-- Exception classes the adapter's own statements can raise. -/
inductive PyError where
  | typeError : PyError
  | valueError : PyError
deriving DecidableEq

/-- A WTForms field as the adapter observes it: its name, label text, widget
kind (`hidden` iff the widget is a `HiddenInput`), its `str(field)` markup
rendering, the `process_errors` recorded during construction, the current
`errors` list, and the behaviour of its own synchronous validator chain on
the current data. -/
structure Field where
  name : String
  label : String
  hidden : Bool
  rendering : String
  processErrors : List String
  errors : List String
  validators : List SyncOutcome
deriving DecidableEq

/-- Messages appended by the base library running a validator chain
(`Field._run_validation_chain`): a `ValidationError` appends its message and
the chain continues; a `StopValidation` appends its message when it carries
one and stops the chain. -/
def runChain : List SyncOutcome → List String
  | [] => []
  | SyncOutcome.ok :: rest => runChain rest
  | SyncOutcome.valError m :: rest => m :: runChain rest
  | SyncOutcome.stop Option.none :: _ => []
  | SyncOutcome.stop (Option.some m) :: _ => [m]

/-- The base library's `Field.validate`: the error list is reset to
`process_errors` and the chain — the field's own validators followed by the
extra validators supplied for this field — appends its messages. -/
def fieldValidate (f : Field) (extraChain : List SyncOutcome) : Field :=
  { f with errors := f.processErrors ++ runChain (f.validators ++ extraChain) }

/-- The base library's `Form.validate`: every field is validated with its
entry of the extra-validators mapping; overall success iff every field ends
with an empty error list. -/
def superValidate (fields : List Field) (extra : List (String × List SyncOutcome)) :
    Bool × List Field :=
  let fs := fields.map (fun f => fieldValidate f ((extra.lookup f.name).getD []))
  (fs.all (fun f => f.errors.isEmpty), fs)

/-- The adapter's view of a `QuartForm` instance: its fields in declaration
order, and for each field name that has one, the truthy class attribute
`async_validate_<name>` (modelled by the outcome awaiting it would produce on
the current data). -/
structure QForm where
  fields : List Field
  asyncValidators : List (String × AsyncOutcome)
deriving DecidableEq

/-- Store of the Python list objects reachable from the caller's
`extra_validators` dict: reference to current contents.  The shallow
`extra_validators.copy()` at form.py:138 copies the name-to-reference pairs
but shares these list objects with the caller. -/
abbrev Heap := List (Nat × List SyncOutcome)

/-- The caller's `extra_validators` dict: field name to list reference. -/
abbrev ExtraRefs := List (String × Nat)

/-- The registration loop of `QuartForm.validate` (form.py:150-154): for each
field whose class carries a truthy `async_validate_<name>`, the statement
`extra.setdefault[name, []].append(record_status)` first evaluates
`extra.setdefault` (the bound method) and then subscripts it, which raises
`TypeError` before `.append` can run — so no list in the store is ever
touched and the loop aborts at the first such field.  Fields without an
async validator produce no statement. -/
def registerHooks (av : List (String × AsyncOutcome)) (heap : Heap) :
    List Field → Except PyError Heap
  | [] => Except.ok heap
  | f :: rest =>
      if (av.lookup f.name).isSome then Except.error PyError.typeError
      else registerHooks av heap rest

instance exceptDecEq {ε α : Type} [DecidableEq ε] [DecidableEq α] :
    DecidableEq (Except ε α) := fun x y =>
  match x, y with
  | Except.ok a, Except.ok b => decidable_of_iff (a = b) (by simp)
  | Except.ok _, Except.error _ => Decidable.isFalse (fun h => Except.noConfusion h)
  | Except.error _, Except.ok _ => Decidable.isFalse (fun h => Except.noConfusion h)
  | Except.error e, Except.error f => decidable_of_iff (e = f) (by simp)

/-- Everything a caller can observe of one `validate()` call: the returned
value or raised exception, the form's field states afterwards, the names
whose async validator was awaited, and the shared list store afterwards. -/
structure ValidateOut where
  result : Except PyError Bool
  fields : List Field
  asyncInvoked : List String
  heapAfter : Heap
deriving DecidableEq

/-- `QuartForm.validate` (form.py:133-168).  `extra = extra_validators.copy()`
shares the caller's list objects (`heap`, `callerExtra`); the registration
loop raises `TypeError` as soon as any field has an async validator (see
`registerHooks`).  On the only surviving path no field has an async
validator, so `record_status` was never registered, `completed` stays empty,
`tasks` is empty, `asyncio.gather` returns `[]`, and the returned value is
the base library's synchronous result.  `extra_validators=None` is the empty
store and map. -/
def qvalidate (form : QForm) (heap : Heap) (callerExtra : ExtraRefs) : ValidateOut :=
  match registerHooks form.asyncValidators heap form.fields with
  | Except.error e =>
      { result := Except.error e, fields := form.fields,
        asyncInvoked := [], heapAfter := heap }
  | Except.ok heap2 =>
      let extraVals := callerExtra.map (fun p => (p.1, (heap2.lookup p.2).getD []))
      let r := superValidate form.fields extraVals
      { result := Except.ok r.1, fields := r.2,
        asyncInvoked := [], heapAfter := heap2 }

/-- `QuartForm._validate_async` (form.py:122-131): await the validator; a
`ValidationError` is caught, its first argument appended to the field's
errors and `False` returned; a normal return yields `True`; any other
exception is not caught and propagates. -/
def validateAsync (outcome : AsyncOutcome) (f : Field) :
    Except String (Bool × Field) :=
  match outcome with
  | AsyncOutcome.ok => Except.ok (true, f)
  | AsyncOutcome.valError m => Except.ok (false, { f with errors := f.errors ++ [m] })
  | AsyncOutcome.raise e => Except.error e

/-- `asyncio.gather` over the `_validate_async` tasks (form.py:160-162):
collects every task's result; the first exception propagates to the caller
of `validate`. -/
def gatherResults : List (Except String (Bool × Field)) →
    Except String (List (Bool × Field))
  | [] => Except.ok []
  | Except.error e :: _ => Except.error e
  | Except.ok r :: rest =>
      match gatherResults rest with
      | Except.error e => Except.error e
      | Except.ok rs => Except.ok (r :: rs)

/-- `SUBMIT_METHODS` (form.py:14). -/
def SUBMIT_METHODS : List String := ["POST", "PUT", "PATCH", "DELETE"]

/-- The body-bearing data of a bound request: uploaded files, posted form
fields, the JSON-body flag, and the parsed JSON body as a dict. -/
structure RequestData where
  files : List (String × String)
  form : List (String × String)
  isJson : Bool
  jsonBody : List (String × String)
deriving DecidableEq

/-- The ambient request proxy: either no bound request context, or an active
request with its HTTP method and data. -/
inductive RequestCtx where
  | noCtx : RequestCtx
  | active : String → RequestData → RequestCtx
deriving DecidableEq

/-- `QuartForm.is_submitted` (form.py:170-176): `bool(request)` is `False`
when the proxy is unbound, so the conjunction short-circuits; otherwise the
request's method is tested for membership in `SUBMIT_METHODS`. -/
def isSubmitted : RequestCtx → Bool
  | RequestCtx.noCtx => false
  | RequestCtx.active m _ => SUBMIT_METHODS.contains m

/-- The possible values `_get_formdata` returns: `CombinedMultiDict((files,
form))`, the form `MultiDict` alone, `ImmutableMultiDict` of the JSON body,
or `None`. -/
inductive Formdata where
  | combined : List (String × String) → List (String × String) → Formdata
  | formOnly : List (String × String) → Formdata
  | jsonDict : List (String × String) → Formdata
  | noData : Formdata
deriving DecidableEq

/-- `QuartForm._get_formdata` (form.py:104-120); the truthiness test on a
`MultiDict` is non-emptiness. -/
def getFormdata (r : RequestData) : Formdata :=
  if !r.files.isEmpty then Formdata.combined r.files r.form
  else if !r.form.isEmpty then Formdata.formOnly r.form
  else if r.isJson then Formdata.jsonDict r.jsonBody
  else Formdata.noData

/-- The `formdata` argument of `create_form`: either the `_Auto` sentinel or
an explicit value. -/
inductive FormdataArg where
  | auto : FormdataArg
  | given : Formdata → FormdataArg
deriving DecidableEq

/-- The formdata-resolution step of `create_form` (form.py:75-80): the
sentinel resolves through `is_submitted()` and `_get_formdata()`; `None`
when not submitted (no context counts as not submitted). -/
def resolveFormdata (ctx : RequestCtx) (fd : FormdataArg) : Formdata :=
  match fd with
  | FormdataArg.given f => f
  | FormdataArg.auto =>
      match ctx with
      | RequestCtx.noCtx => Formdata.noData
      | RequestCtx.active _ d =>
          if isSubmitted ctx then getFormdata d else Formdata.noData

/-- `QuartForm.validate_on_submit` (form.py:178-184): the Python conjunction
`self.is_submitted() and await self.validate(...)` short-circuits, so when
the form is not submitted the call returns `False` and `validate` is never
awaited — no validator runs, no field or store is touched. -/
def validateOnSubmit (ctx : RequestCtx) (form : QForm) (heap : Heap)
    (callerExtra : ExtraRefs) : ValidateOut :=
  if isSubmitted ctx then qvalidate form heap callerExtra
  else
    { result := Except.ok false, fields := form.fields,
      asyncInvoked := [], heapAfter := heap }

/-- An argument to `hidden_tag`: a field-name string or a field object. -/
inductive FieldArg where
  | byName : String → FieldArg
  | byObj : Field → FieldArg
deriving DecidableEq

/-- The generator `hidden_fields` inside `QuartForm.hidden_tag`
(form.py:195-203): a string argument is resolved with
`getattr(self, field, None)` (`None` when the form has no field of that
name); anything that is `None` or whose widget is not a `HiddenInput` is
skipped; the rest are yielded in argument order. -/
def hiddenFields (form : List Field) : List FieldArg → List Field
  | [] => []
  | FieldArg.byName s :: rest =>
      (match form.find? (fun f => f.name == s) with
       | Option.none => hiddenFields form rest
       | Option.some f =>
           if f.hidden then f :: hiddenFields form rest
           else hiddenFields form rest)
  | FieldArg.byObj f :: rest =>
      if f.hidden then f :: hiddenFields form rest
      else hiddenFields form rest

/-- `QuartForm.hidden_tag` (form.py:186-205): `fields or self` — with no
arguments the form's own fields are iterated in declaration order; each
selected field's markup is joined with newline separators into the returned
markup string. -/
def hiddenTag (form : List Field) (args : List FieldArg) : String :=
  let src := if args.isEmpty then form.map FieldArg.byObj else args
  String.intercalate ("\n") ((hiddenFields form src).map Field.rendering)

/-- A label value in a label map: a literal string or a lazy (awaitable)
string as produced by a translation provider. -/
inductive LabelText where
  | lit : String → LabelText
  | lazyTxt : String → LabelText
deriving DecidableEq

/-- The inner coroutine `translate_labels` of `create_form` (form.py:87-90):
`for field, text in label_data` iterates the dict's KEYS; each key (a
string) is sequence-unpacked into the two targets, which raises `ValueError`
unless the key has exactly two characters, in which case `field` and `text`
are its two characters and `await text` awaits a plain one-character string,
raising `TypeError`.  The dict's values and the
`translated_labels[field].append` statement are never reached, so a
non-empty map always raises at its first key and only the empty map
returns. -/
def translateLabels (labelData : List (String × LabelText)) : Except PyError Unit :=
  match labelData with
  | [] => Except.ok ()
  | (k, _) :: _ =>
      if k.length = 2 then Except.error PyError.typeError
      else Except.error PyError.valueError

/-- Python `a or b` on two optional dicts: `a` when truthy (present and
non-empty), else `b`. -/
def pyOr (a b : Option (List (String × LabelText))) :
    Option (List (String × LabelText)) :=
  match a with
  | Option.some l => if l.isEmpty then b else Option.some l
  | Option.none => b

/-- The label-resolution block of `create_form` (form.py:84-100): guarded by
`(cls.Labels or labels) is not None`; runs `translate_labels` on the class
map and then on the caller map; on the only non-raising path both maps were
absent or empty, so the `translated_labels` dict passed on to the
constructor is empty. -/
def resolveLabels (clsLabels callerLabels : Option (List (String × LabelText))) :
    Except PyError (Option (List (String × String))) :=
  match pyOr clsLabels callerLabels with
  | Option.none => Except.ok Option.none
  | Option.some _ => do
      (match clsLabels with
       | Option.some l => translateLabels l
       | Option.none => pure ())
      (match callerLabels with
       | Option.some l => translateLabels l
       | Option.none => pure ())
      pure (Option.some [])

/-! ### Concrete example data used by the theorems below -/

/-- A plain visible field named `n` with no validators and a fresh (empty)
error list. -/
def exField (n : String) : Field :=
  { name := n, label := n, hidden := false, rendering := n,
    processErrors := [], errors := [], validators := [] }

/-- A form with one field `email` whose synchronous chain is empty (so it
completes cleanly) and whose class declares `async_validate_email`. -/
def c1Form : QForm :=
  { fields := [exField ("email")],
    asyncValidators := [("email", AsyncOutcome.ok)] }

/-- A form with two fields that both declare async validators; on this
request `async_validate_email` would raise `ValidationError "bad email"` and
`async_validate_name` would succeed. -/
def c2Form : QForm :=
  { fields := [exField ("email"), exField ("name")],
    asyncValidators :=
      [("email", AsyncOutcome.valError ("bad email")), ("name", AsyncOutcome.ok)] }

/-- C1: the claim says a field whose synchronous chain completes cleanly and
which declares an asynchronous validator has that validator invoked exactly
once during `validate()`.  On the code, any form with an async validator
makes `validate()` raise `TypeError` at `extra.setdefault[name, []]`
(form.py:154) before any validator runs: here the synchronous pass would
succeed, yet `validate()` raises and `async_validate_email` is never
awaited. -/
theorem c1_async_validator_never_invoked :
    qvalidate c1Form [] [] =
      { result := Except.error PyError.typeError, fields := c1Form.fields,
        asyncInvoked := [], heapAfter := [] } ∧
    (superValidate c1Form.fields []).1 = true := by
  exact ⟨rfl, rfl⟩

/-- C2: the claim says that with two async-validator fields, one failing and
one succeeding, `validate()` returns false with exactly the raised message
on the failing field.  On the code, `validate()` instead raises `TypeError`
at `extra.setdefault[name, []]` (form.py:154) and returns nothing; no error
message is ever recorded. -/
theorem c2_validate_raises_instead_of_false :
    qvalidate c2Form [] [] =
      { result := Except.error PyError.typeError, fields := c2Form.fields,
        asyncInvoked := [], heapAfter := [] } := by
  exact rfl

/-- C3: the claim says `create_form(labels={"email": "Your Email"})` yields a
form whose `email` field's label reads "Your Email".  On the code, the label
block of `create_form` raises `ValueError`: `for field, text in label_data`
iterates the dict's keys and sequence-unpacks the five-character key
`email`, so construction never completes and no label is applied. -/
theorem c3_labels_raise_value_error :
    resolveLabels Option.none (Option.some [("email", LabelText.lit ("Your Email"))]) =
      Except.error PyError.valueError := by
  exact rfl

/-- C4: with `formdata` left as the AUTO sentinel, `create_form` resolves no
formdata when not submitted (including when no request context exists); when
submitted it takes `_get_formdata()`, which combines files and form data
when files are present, else the form data alone when non-empty, else the
immutable wrapping of the JSON body when the request is JSON, else none. -/
theorem c4_formdata_resolution (m : String) (d : RequestData) :
    resolveFormdata RequestCtx.noCtx FormdataArg.auto = Formdata.noData ∧
    (isSubmitted (RequestCtx.active m d) = false →
      resolveFormdata (RequestCtx.active m d) FormdataArg.auto = Formdata.noData) ∧
    (isSubmitted (RequestCtx.active m d) = true →
      resolveFormdata (RequestCtx.active m d) FormdataArg.auto = getFormdata d) ∧
    (d.files ≠ [] → getFormdata d = Formdata.combined d.files d.form) ∧
    (d.files = [] → d.form ≠ [] → getFormdata d = Formdata.formOnly d.form) ∧
    (d.files = [] → d.form = [] → d.isJson = true →
      getFormdata d = Formdata.jsonDict d.jsonBody) ∧
    (d.files = [] → d.form = [] → d.isJson = false →
      getFormdata d = Formdata.noData) := by
  refine ⟨rfl, ?_, ?_, ?_, ?_, ?_, ?_⟩
  · intro h; simp [resolveFormdata, h]
  · intro h; simp [resolveFormdata, h]
  · intro h; simp [getFormdata, List.isEmpty_iff, h]
  · intro h1 h2; simp [getFormdata, List.isEmpty_iff, h1, h2]
  · intro h1 h2 h3; simp [getFormdata, List.isEmpty_iff, h1, h2, h3]
  · intro h1 h2 h3; simp [getFormdata, List.isEmpty_iff, h1, h2, h3]

/-- Whether an async-validator outcome is a foreign exception (anything other
than a normal return or a `ValidationError`). -/
def AsyncOutcome.isRaise : AsyncOutcome → Bool
  | AsyncOutcome.raise _ => true
  | _ => false

/-- Gathering an already-completed task ahead of a gather that completes
extends the collected results. -/
theorem gatherResults_ok_cons (r : Bool × Field)
    (l : List (Except String (Bool × Field))) (rs : List (Bool × Field))
    (h : gatherResults l = Except.ok rs) :
    gatherResults (Except.ok r :: l) = Except.ok (r :: rs) := by
  simp [gatherResults, h]

/-- C5: an asynchronous validator that raises `ValidationError msg` has `msg`
appended to its field's error list and its result marked failed; a clean
validator leaves the field untouched and is marked passed; any other
exception is not caught by `_validate_async` and propagates through
`asyncio.gather`; and when no validator raises a foreign exception, the
gather completes with one result per dispatched validator — one failing
validator does not abort the others. -/
theorem c5_async_error_contract (m e : String) (f : Field)
    (l : List (AsyncOutcome × Field)) (tl : List (Except String (Bool × Field))) :
    validateAsync (AsyncOutcome.valError m) f =
      Except.ok (false, { f with errors := f.errors ++ [m] }) ∧
    validateAsync AsyncOutcome.ok f = Except.ok (true, f) ∧
    validateAsync (AsyncOutcome.raise e) f = Except.error e ∧
    gatherResults (Except.error e :: tl) = Except.error e ∧
    ((∀ p ∈ l, p.1.isRaise = false) →
      ∃ rs, gatherResults (l.map (fun p => validateAsync p.1 p.2)) = Except.ok rs ∧
        rs.length = l.length) := by
  refine ⟨rfl, rfl, rfl, rfl, ?_⟩
  intro h
  induction l with
  | nil => exact ⟨[], rfl, rfl⟩
  | cons p rest ih =>
      obtain ⟨rs, hrs, hlen⟩ := ih (fun q hq => h q (List.mem_cons_of_mem _ hq))
      have hp : p.1.isRaise = false := h p (List.mem_cons_self p rest)
      cases hcase : p.1 with
      | ok =>
          refine ⟨(true, p.2) :: rs, ?_, by simp [hlen]⟩
          rw [List.map_cons]
          have hv : validateAsync p.1 p.2 = Except.ok (true, p.2) := by
            rw [hcase]
            rfl
          rw [hv]
          exact gatherResults_ok_cons _ _ _ hrs
      | valError msg =>
          refine ⟨(false, { p.2 with errors := p.2.errors ++ [msg] }) :: rs, ?_,
            by simp [hlen]⟩
          rw [List.map_cons]
          have hv : validateAsync p.1 p.2 =
              Except.ok (false, { p.2 with errors := p.2.errors ++ [msg] }) := by
            rw [hcase]
            rfl
          rw [hv]
          exact gatherResults_ok_cons _ _ _ hrs
      | raise s =>
          rw [hcase] at hp
          simp [AsyncOutcome.isRaise] at hp

/-- C6: `validate_on_submit` returns false — touching neither the fields nor
any validator nor the shared store — whenever `is_submitted()` is false, and
otherwise returns exactly the outcome of `validate(extra_validators)`. -/
theorem c6_validate_on_submit_gate (ctx : RequestCtx) (form : QForm)
    (heap : Heap) (extra : ExtraRefs) :
    (isSubmitted ctx = false →
      validateOnSubmit ctx form heap extra =
        { result := Except.ok false, fields := form.fields,
          asyncInvoked := [], heapAfter := heap }) ∧
    (isSubmitted ctx = true →
      validateOnSubmit ctx form heap extra = qvalidate form heap extra) := by
  constructor <;> intro h <;> simp [validateOnSubmit, h]

/-- C7: `is_submitted()` is true iff an active request context exists and its
HTTP method is POST, PUT, PATCH or DELETE; with no bound request context it
is false (the proxy is falsy) rather than an error, and the check is a pure
function of the context. -/
theorem c7_is_submitted_characterisation (ctx : RequestCtx) :
    (isSubmitted ctx = true ↔
      ∃ m d, ctx = RequestCtx.active m d ∧
        (m = "POST" ∨ m = "PUT" ∨ m = "PATCH" ∨ m = "DELETE")) ∧
    isSubmitted RequestCtx.noCtx = false := by
  refine ⟨?_, rfl⟩
  cases ctx with
  | noCtx => simp [isSubmitted]
  | active m d => simp [isSubmitted, SUBMIT_METHODS]

/-- Resolution of a single `hidden_tag` argument: a name resolves through
`getattr` to the form's field of that name (`none` when absent), an object
resolves to itself. -/
def resolveArg (form : List Field) : FieldArg → Option Field
  | FieldArg.byName s => form.find? (fun f => f.name == s)
  | FieldArg.byObj f => Option.some f

/-- The `hidden_fields` generator yields exactly the resolvable arguments
whose widget is hidden, in argument order. -/
theorem hiddenFields_eq_filter (form : List Field) (l : List FieldArg) :
    hiddenFields form l = (l.filterMap (resolveArg form)).filter Field.hidden := by
  induction l with
  | nil => rfl
  | cons a rest ih =>
      cases a with
      | byName s =>
          cases hfind : form.find? (fun f => f.name == s) with
          | none =>
              simp [hiddenFields, resolveArg, hfind, List.filterMap_cons, ih]
          | some f =>
              cases hf : f.hidden <;>
                simp [hiddenFields, resolveArg, hfind, List.filterMap_cons,
                  List.filter_cons, hf, ih]
      | byObj f =>
          cases hf : f.hidden <;>
            simp [hiddenFields, resolveArg, List.filterMap_cons,
              List.filter_cons, hf, ih]

/-- With the form's own fields as arguments, the generator selects the hidden
fields in form order. -/
theorem hiddenFields_self (form : List Field) :
    hiddenFields form (form.map FieldArg.byObj) = form.filter Field.hidden := by
  rw [hiddenFields_eq_filter]
  congr 1
  rw [List.filterMap_map]
  have h : (resolveArg form ∘ FieldArg.byObj) = Option.some := by
    funext f
    rfl
  rw [h, List.filterMap_some]

/-- C8: `hidden_tag()` renders exactly the form's hidden-widget fields in
form order, newline-joined; with arguments it renders exactly the arguments
that resolve to hidden fields; a name absent from the form, or naming a
non-hidden field, contributes nothing and raises no error. -/
theorem c8_hidden_tag_rendering (form : List Field) (a : FieldArg)
    (args : List FieldArg) (s : String) :
    hiddenTag form [] =
      String.intercalate ("\n") ((form.filter Field.hidden).map Field.rendering) ∧
    hiddenTag form (a :: args) =
      String.intercalate ("\n")
        ((((a :: args).filterMap (resolveArg form)).filter Field.hidden).map
          Field.rendering) ∧
    ((∀ f ∈ form, f.name ≠ s) → hiddenTag form [FieldArg.byName s] = "") ∧
    (∀ f, resolveArg form (FieldArg.byName s) = Option.some f → f.hidden = false →
      hiddenTag form [FieldArg.byName s] = "") := by
  refine ⟨?_, ?_, ?_, ?_⟩
  · have h0 : hiddenTag form [] =
        String.intercalate ("\n")
          ((hiddenFields form (form.map FieldArg.byObj)).map Field.rendering) := rfl
    rw [h0, hiddenFields_self]
  · have h0 : hiddenTag form (a :: args) =
        String.intercalate ("\n")
          ((hiddenFields form (a :: args)).map Field.rendering) := rfl
    rw [h0, hiddenFields_eq_filter]
  · intro h
    have hfind : form.find? (fun f => f.name == s) = Option.none := by
      rw [List.find?_eq_none]
      intro f hf
      simp [h f hf]
    simp [hiddenTag, hiddenFields, hfind, String.intercalate]
  · intro f hres hhid
    simp [resolveArg] at hres
    simp [hiddenTag, hiddenFields, hres, hhid, String.intercalate]

/-- The successive values of an error list that starts as `start` and has the
messages of `msgs` appended to it one at a time. -/
def appendStates (start : List String) : List String → List (List String)
  | [] => [start]
  | m :: rest => start :: appendStates (start ++ [m]) rest

theorem appendStates_head (start : List String) (msgs : List String) :
    ∃ t, appendStates start msgs = start :: t := by
  cases msgs with
  | nil => exact ⟨[], rfl⟩
  | cons m rest => exact ⟨appendStates (start ++ [m]) rest, rfl⟩

/-- Appending messages one at a time only ever extends the list: successive
states are prefixes of their successors. -/
theorem appendStates_chain (msgs : List String) : ∀ start : List String,
    List.Chain' (fun a b => a <+: b) (appendStates start msgs) := by
  induction msgs with
  | nil => intro start; simp [appendStates]
  | cons m rest ih =>
      intro start
      rw [appendStates]
      obtain ⟨t, ht⟩ := appendStates_head (start ++ [m]) rest
      rw [ht]
      refine List.Chain'.cons ?_ ?_
      · exact List.prefix_append start [m]
      · rw [← ht]
        exact ih (start ++ [m])

theorem appendStates_getLast (msgs : List String) : ∀ start : List String,
    (appendStates start msgs).getLast? = Option.some (start ++ msgs) := by
  induction msgs with
  | nil => intro s; simp [appendStates]
  | cons m rest ih =>
      intro s
      rw [appendStates]
      obtain ⟨t, ht⟩ := appendStates_head (s ++ [m]) rest
      rw [ht, List.getLast?_cons_cons, ← ht, ih]
      simp

/-- The successive states of a field's error list during one `validate()`
call: its state when the call is entered, then the states produced by the
base library's `Field.validate` — the reset to `process_errors` followed by
one append per message of the chain (the field's own validators, then the
extra validators supplied for the field).  The adapter's asynchronous stage
would only append further (form.py:129), and on this code it never runs
(see `qvalidate`). -/
def errorTrajectory (f : Field) (extraChain : List SyncOutcome) : List (List String) :=
  f.errors :: appendStates f.processErrors (runChain (f.validators ++ extraChain))

/-- The registration loop leaves the shared store untouched whenever it
completes without raising. -/
theorem registerHooks_ok_heap (av : List (String × AsyncOutcome)) (heap : Heap) :
    ∀ (fs : List Field) (h2 : Heap),
      registerHooks av heap fs = Except.ok h2 → h2 = heap := by
  intro fs
  induction fs with
  | nil =>
      intro h2 h
      simp [registerHooks] at h
      exact h.symm
  | cons f rest ih =>
      intro h2 h
      cases hf : (av.lookup f.name).isSome with
      | true => simp [registerHooks, hf] at h
      | false =>
          simp [registerHooks, hf] at h
          exact ih h2 h

/-- C9: within one `validate()` call on a fresh form (every error list
empty), each field's error list only ever grows: the successive states it
takes during the pass form a chain under the prefix order ending in the
field's final `errors`; when the call aborts with the `TypeError` the field
states are untouched; and every field state `validate()` leaves behind
extends an initial field state as a prefix. -/
theorem c9_errors_append_only (form : QForm) (heap : Heap) (extra : ExtraRefs)
    (hfresh : ∀ f ∈ form.fields, f.errors = []) :
    (∀ f ∈ form.fields, ∀ ex : List SyncOutcome,
      List.Chain' (fun a b => a <+: b) (errorTrajectory f ex) ∧
      (errorTrajectory f ex).getLast? = Option.some (fieldValidate f ex).errors) ∧
    ((qvalidate form heap extra).result = Except.error PyError.typeError →
      (qvalidate form heap extra).fields = form.fields) ∧
    (∀ g ∈ (qvalidate form heap extra).fields,
      ∃ f ∈ form.fields, f.errors <+: g.errors) := by
  refine ⟨?_, ?_, ?_⟩
  · intro f hf ex
    obtain ⟨t, ht⟩ :=
      appendStates_head f.processErrors (runChain (f.validators ++ ex))
    constructor
    · rw [errorTrajectory, ht]
      refine List.Chain'.cons ?_ ?_
      · rw [hfresh f hf]
        exact List.nil_prefix
      · rw [← ht]
        exact appendStates_chain _ _
    · rw [errorTrajectory, ht, List.getLast?_cons_cons, ← ht, appendStates_getLast]
      rfl
  · intro hres
    cases hreg : registerHooks form.asyncValidators heap form.fields with
    | error e => simp [qvalidate, hreg]
    | ok h2 => simp [qvalidate, hreg] at hres
  · intro g hg
    cases hreg : registerHooks form.asyncValidators heap form.fields with
    | error e =>
        refine ⟨g, ?_, List.prefix_refl _⟩
        simpa [qvalidate, hreg] using hg
    | ok h2 =>
        obtain ⟨f, hf, hfg⟩ :=
          List.mem_map.mp (by simpa [qvalidate, hreg, superValidate] using hg)
        refine ⟨f, hf, ?_⟩
        rw [hfresh f hf, ← hfg]
        exact List.nil_prefix

/-- C10: one `validate(extra_validators)` call leaves the caller's mapping
exactly as it was: the dict is only shallow-copied, the mutating statement
of the registration loop raises before it can append, and the base library
only reads the mapping — so every list object the caller's mapping refers
to holds the same validators after the call, whether the call returns or
raises. -/
theorem c10_extra_validators_unchanged (form : QForm) (heap : Heap)
    (extra : ExtraRefs) :
    (qvalidate form heap extra).heapAfter = heap ∧
    (∀ p ∈ extra,
      ((qvalidate form heap extra).heapAfter).lookup p.2 = heap.lookup p.2) := by
  have hheap : (qvalidate form heap extra).heapAfter = heap := by
    cases hreg : registerHooks form.asyncValidators heap form.fields with
    | error e => simp [qvalidate, hreg]
    | ok h2 => simp [qvalidate, hreg, registerHooks_ok_heap _ _ _ _ hreg]
  exact ⟨hheap, fun p _ => by rw [hheap]⟩

/-! ### Witnesses: the theorems above evaluated at concrete inputs -/

/-- Request data carrying one uploaded file and one posted form field. -/
def dFiles : RequestData :=
  { files := [("doc", "a.txt")], form := [("q", "1")],
    isJson := false, jsonBody := [] }

/-- Request data carrying only a JSON body. -/
def dJson : RequestData :=
  { files := [], form := [], isJson := true, jsonBody := [("k", "v")] }

theorem c4_formdata_resolution_witness :
    resolveFormdata (RequestCtx.active ("POST") dFiles) FormdataArg.auto =
      getFormdata dFiles ∧
    getFormdata dFiles = Formdata.combined dFiles.files dFiles.form ∧
    getFormdata dJson = Formdata.jsonDict dJson.jsonBody ∧
    resolveFormdata (RequestCtx.active ("GET") dFiles) FormdataArg.auto =
      Formdata.noData :=
  ⟨(c4_formdata_resolution ("POST") dFiles).2.2.1 (by decide),
   (c4_formdata_resolution ("POST") dFiles).2.2.2.1 (by decide),
   (c4_formdata_resolution ("POST") dJson).2.2.2.2.2.1 (by decide) (by decide)
     (by decide),
   (c4_formdata_resolution ("GET") dFiles).2.1 (by decide)⟩

/-- Concrete field for the C5 witness. -/
def w5Field : Field := exField ("name")

theorem c5_async_error_contract_witness :
    validateAsync (AsyncOutcome.valError ("taken")) w5Field =
      Except.ok (false, { w5Field with errors := w5Field.errors ++ [("taken")] }) ∧
    ∃ rs,
      gatherResults
        ([(AsyncOutcome.valError ("taken"), w5Field),
          (AsyncOutcome.ok, w5Field)].map (fun p => validateAsync p.1 p.2)) =
        Except.ok rs ∧
      rs.length = 2 :=
  ⟨(c5_async_error_contract ("taken") ("boom") w5Field
      [(AsyncOutcome.valError ("taken"), w5Field), (AsyncOutcome.ok, w5Field)]
      []).1,
   (c5_async_error_contract ("taken") ("boom") w5Field
      [(AsyncOutcome.valError ("taken"), w5Field), (AsyncOutcome.ok, w5Field)]
      []).2.2.2.2 (by decide)⟩

/-- A form whose `validate()` would raise the registration `TypeError` (an
async validator is declared): `validate_on_submit` still returns false on a
GET request without touching it. -/
def c6Form : QForm :=
  { fields := [exField ("email")],
    asyncValidators := [("email", AsyncOutcome.ok)] }

theorem c6_validate_on_submit_gate_witness :
    validateOnSubmit (RequestCtx.active ("GET") dJson) c6Form [] [] =
      { result := Except.ok false, fields := c6Form.fields,
        asyncInvoked := [], heapAfter := [] } :=
  (c6_validate_on_submit_gate (RequestCtx.active ("GET") dJson) c6Form [] []).1
    (by decide)

theorem c7_is_submitted_characterisation_witness :
    isSubmitted (RequestCtx.active ("POST") dJson) = true ∧
    isSubmitted RequestCtx.noCtx = false :=
  ⟨(c7_is_submitted_characterisation (RequestCtx.active ("POST") dJson)).1.mpr
      ⟨("POST"), dJson, rfl, Or.inl rfl⟩,
   (c7_is_submitted_characterisation RequestCtx.noCtx).2⟩

/-- A hidden CSRF-style field for the C8 witness. -/
def csrfField : Field :=
  { name := ("csrf_token"), label := ("csrf_token"), hidden := true,
    rendering := ("<input type=hidden>"), processErrors := [], errors := [],
    validators := [] }

/-- Witness form: one hidden field followed by one visible field. -/
def w8Form : List Field := [csrfField, exField ("name")]

theorem c8_hidden_tag_rendering_witness :
    hiddenTag w8Form [] =
      String.intercalate ("\n") ((w8Form.filter Field.hidden).map Field.rendering) ∧
    hiddenTag w8Form [FieldArg.byName ("missing")] = "" ∧
    hiddenTag w8Form [FieldArg.byName ("name")] = "" :=
  ⟨(c8_hidden_tag_rendering w8Form (FieldArg.byObj csrfField) [] ("missing")).1,
   (c8_hidden_tag_rendering w8Form (FieldArg.byObj csrfField) [] ("missing")).2.2.1
     (by decide),
   (c8_hidden_tag_rendering w8Form (FieldArg.byObj csrfField) [] ("name")).2.2.2
     (exField ("name")) (by decide) (by decide)⟩

/-- Witness form for C9: one fresh field with a failing synchronous
validator, no async validators. -/
def c9Form : QForm :=
  { fields := [{ exField ("email") with
      validators := [SyncOutcome.valError ("required")] }],
    asyncValidators := [] }

theorem c9_errors_append_only_witness :
    List.Chain' (fun a b => a <+: b)
      (errorTrajectory ({ exField ("email") with
        validators := [SyncOutcome.valError ("required")] }) []) ∧
    (errorTrajectory ({ exField ("email") with
        validators := [SyncOutcome.valError ("required")] }) []).getLast? =
      Option.some (fieldValidate ({ exField ("email") with
        validators := [SyncOutcome.valError ("required")] }) []).errors :=
  (c9_errors_append_only c9Form [] [] (by decide)).1
    ({ exField ("email") with validators := [SyncOutcome.valError ("required")] })
    (by decide) []

/-- Witness form for C10: a declared async validator, so `validate()` takes
the raising path; the caller's validator list must still be untouched. -/
def c10Form : QForm :=
  { fields := [exField ("email")],
    asyncValidators := [("email", AsyncOutcome.ok)] }

/-- The caller's `extra_validators`: one list object holding one validator,
referenced by the entry for `email`. -/
def w10Heap : Heap := [(0, [SyncOutcome.valError ("required")])]

def w10Extra : ExtraRefs := [("email", 0)]

theorem c10_extra_validators_unchanged_witness :
    (qvalidate c10Form w10Heap w10Extra).heapAfter = w10Heap ∧
    ((qvalidate c10Form w10Heap w10Extra).heapAfter).lookup 0 = w10Heap.lookup 0 :=
  ⟨(c10_extra_validators_unchanged c10Form w10Heap w10Extra).1,
   (c10_extra_validators_unchanged c10Form w10Heap w10Extra).2 ("email", 0)
     (by decide)⟩

end QuartWtf
